import Mathlib

set_option maxHeartbeats 1000000

/-
Verification of src/src/coniql_strawberry/app.py.

The file embeds the channel-resolution core of the application:
the deferred, memoized channel cell (DeferredChannel.get_channel,
lines 33-40), the mutation coordinator (put_channel, lines 89-119),
the read-name derivation of the query and subscription paths
(GetChannel.__init__ line 50, subscribe_channel line 83), and the
value-decoding pipeline (json / base64 / numpy typed buffers,
lines 101-112).  Collaborators that are not part of the repository
snapshot (PluginStore, ChannelConfig) are modelled from the
specification and are marked as such in their doc comments.
-/

namespace Coniql

/-- Decidable equality for plugin-fetch outcomes (exception id or
snapshot id, both modelled as naturals). -/
def exceptBeq : Except Nat Nat → Except Nat Nat → Bool
  | .ok a, .ok b => a = b
  | .error a, .error b => a = b
  | _, _ => false

instance : DecidableEq (Except Nat Nat) := fun a b =>
  decidable_of_iff (exceptBeq a b = true)
    (by cases a <;> cases b <;> simp [exceptBeq])

/-! # The deferred channel cell (app.py lines 25-40)

`DeferredChannel.get_channel` is a double-checked-locking single-flight
memoizer running under asyncio, i.e. single-threaded cooperative
concurrency: control can change task only at an `await`.  We embed it as
a small-step machine.  Channel snapshots are modelled as `Nat`; the
plugin fetch performed by `populate_channel` is modelled as a function
from the call index to `Except Nat Nat` (an exception identifier or a
snapshot), and the machine counts its invocations.  -/

/-- Program counter of one logical task inside one call of
`DeferredChannel.get_channel` (app.py lines 33-40).
`start`: about to evaluate the unlocked `if self.channel is None` test
of line 34 (the fast path of line 34 plus the return of line 40 is
atomic: it contains no await).
`wantLock`: suspended in `async with self.lock` (line 35).
`locked`: holds the lock, about to re-test `self.channel` (line 37).
`fetching r`: holds the lock, suspended in `await self.populate_channel()`
(line 38); `r` is the value the pending plugin call will produce.
`done r`: the call returned (`r = .ok v`, line 40) or the exception of
the fetch propagated out (`r = .error e`). -/
inductive GetPc where
  | start
  | wantLock
  | locked
  | fetching (r : Except Nat Nat)
  | done (r : Except Nat Nat)
deriving DecidableEq

/-- The mutable fields of one `DeferredChannel` cell together with the
instrumentation needed to state single-flight: `channel` is the
memoized snapshot (`self.channel`, line 28), `lockOwner` the task
currently inside `async with self.lock` (line 35, `none` when the lock
is free), and `fetchCount` the number of `populate_channel` plugin
fetches started so far. -/
structure CellState where
  channel : Option Nat
  lockOwner : Option Nat
  fetchCount : Nat
deriving DecidableEq

/-- A system of `n` logical tasks (schema field resolvers of one
operation) all calling `get_channel` on the same cell.  `tasks t` is
the program counter of task `t` for `t < n`. -/
structure SysState where
  cell : CellState
  n : Nat
  tasks : Nat → GetPc

/-- One atomic step of task `tid` (atomic = no `await` inside), a direct
transcription of app.py lines 33-40 under asyncio semantics. -/
def stepTask (plugin : Nat → Except Nat Nat) (cell : CellState) (tid : Nat) :
    GetPc → CellState × GetPc
  | .start =>
    match cell.channel with
    | some v => (cell, .done (.ok v))
    | none => (cell, .wantLock)
  | .wantLock =>
    match cell.lockOwner with
    | none => ({ cell with lockOwner := some tid }, .locked)
    | some _ => (cell, .wantLock)
  | .locked =>
    match cell.channel with
    | some v => ({ cell with lockOwner := none }, .done (.ok v))
    | none =>
      ({ cell with fetchCount := cell.fetchCount + 1 },
        .fetching (plugin cell.fetchCount))
  | .fetching r =>
    match r with
    | .ok v => ({ cell with channel := some v, lockOwner := none }, .done (.ok v))
    | .error e => ({ cell with lockOwner := none }, .done (.error e))
  | .done r => (cell, .done r)

/-- The scheduler gives control to task `t`; out-of-range ids do
nothing, and a task blocked on the lock or already done is unchanged. -/
def stepSys (plugin : Nat → Except Nat Nat) (s : SysState) (t : Nat) : SysState :=
  if t < s.n then
    { cell := (stepTask plugin s.cell t (s.tasks t)).1, n := s.n,
      tasks := Function.update s.tasks t (stepTask plugin s.cell t (s.tasks t)).2 }
  else s

/-- Run the machine under an arbitrary cooperative schedule. -/
def runSys (plugin : Nat → Except Nat Nat) (s : SysState) (sched : List Nat) : SysState :=
  sched.foldl (stepSys plugin) s

/-- Initial state of a fresh `GetChannel` cell (channel unset, lock
free, no fetch yet) with `n` concurrent callers about to enter
`get_channel`. -/
def initSys (n : Nat) : SysState :=
  { cell := { channel := none, lockOwner := none, fetchCount := 0 },
    n := n, tasks := fun _ => .start }

/-- A cell whose `channel` slot is already populated with `v` (as after
a completed fetch, or a `SubscribeChannel` cell, app.py lines 59-62),
with `c` fetches already charged to the plugin and `n` fresh callers. -/
def popSys (n c v : Nat) : SysState :=
  { cell := { channel := some v, lockOwner := none, fetchCount := c },
    n := n, tasks := fun _ => .start }

/-- Whether a task has returned from `get_channel` (normally or with an
exception). -/
def isDone : GetPc → Bool
  | .done _ => true
  | _ => false

/-- Whether a program counter is inside the `async with self.lock`
region. -/
def holdsLock : GetPc → Bool
  | .locked => true
  | .fetching _ => true
  | _ => false

theorem stepSys_n (plugin : Nat → Except Nat Nat) (s : SysState) (t : Nat) :
    (stepSys plugin s t).n = s.n := by
  unfold stepSys
  split <;> rfl

theorem runSys_n (plugin : Nat → Except Nat Nat) (sched : List Nat) (s : SysState) :
    (runSys plugin s sched).n = s.n := by
  induction sched generalizing s with
  | nil => rfl
  | cons t rest ih =>
    show (runSys plugin (stepSys plugin s t) rest).n = s.n
    rw [ih, stepSys_n]

/-- Mutual-exclusion bookkeeping: a task is inside the lock region
exactly when it is the recorded owner of the cell lock. -/
def lockOk (s : SysState) : Prop :=
  (∀ t, t < s.n → holdsLock (s.tasks t) = true → s.cell.lockOwner = some t) ∧
  (∀ t, s.cell.lockOwner = some t → t < s.n ∧ holdsLock (s.tasks t) = true)

theorem lockOk_keep (s : SysState) (t : Nat) (pc2 : GetPc) (newCell : CellState)
    (h : lockOk s) (hown : newCell.lockOwner = s.cell.lockOwner)
    (hold : holdsLock (s.tasks t) = false) (hnew : holdsLock pc2 = false) :
    lockOk { cell := newCell, n := s.n, tasks := Function.update s.tasks t pc2 } := by
  constructor
  · intro u hu hlu
    simp only at hlu ⊢
    rcases eq_or_ne u t with rfl | hne
    · rw [Function.update_same] at hlu
      rw [hnew] at hlu; exact absurd hlu (by simp)
    · rw [Function.update_noteq hne] at hlu
      rw [hown]
      exact h.1 u hu hlu
  · intro u hu
    simp only at hu ⊢
    rw [hown] at hu
    obtain ⟨hun, hcase⟩ := h.2 u hu
    refine ⟨hun, ?_⟩
    have hut : u ≠ t := by
      intro he; subst he; rw [hold] at hcase; exact absurd hcase (by simp)
    rw [Function.update_noteq hut]
    exact hcase

theorem lockOk_acquire (s : SysState) (t : Nat) (pc2 : GetPc) (newCell : CellState)
    (h : lockOk s) (ht : t < s.n)
    (hfree : s.cell.lockOwner = none) (hown : newCell.lockOwner = some t)
    (hnew : holdsLock pc2 = true) :
    lockOk { cell := newCell, n := s.n, tasks := Function.update s.tasks t pc2 } := by
  constructor
  · intro u hu hlu
    simp only at hlu ⊢
    rcases eq_or_ne u t with rfl | hne
    · rw [hown]
    · rw [Function.update_noteq hne] at hlu
      have := h.1 u hu hlu
      rw [hfree] at this; exact absurd this (by simp)
  · intro u hu
    simp only at hu ⊢
    rw [hown] at hu
    have hut : u = t := (Option.some.injEq _ _).mp hu.symm
    subst hut
    exact ⟨ht, by rw [Function.update_same]; exact hnew⟩

theorem lockOk_release (s : SysState) (t : Nat) (pc2 : GetPc) (newCell : CellState)
    (h : lockOk s) (ht : t < s.n)
    (hheld : holdsLock (s.tasks t) = true) (hown : newCell.lockOwner = none)
    (hnew : holdsLock pc2 = false) :
    lockOk { cell := newCell, n := s.n, tasks := Function.update s.tasks t pc2 } := by
  constructor
  · intro u hu hlu
    simp only at hlu ⊢
    rcases eq_or_ne u t with rfl | hne
    · rw [Function.update_same] at hlu
      rw [hnew] at hlu; exact absurd hlu (by simp)
    · rw [Function.update_noteq hne] at hlu
      have hu2 := h.1 u hu hlu
      have ht2 := h.1 t ht hheld
      rw [hu2] at ht2
      exact absurd ((Option.some.injEq _ _).mp ht2) hne
  · intro u hu
    simp only at hu
    rw [hown] at hu
    exact absurd hu (by simp)

theorem lockOk_swap (s : SysState) (t : Nat) (pc2 : GetPc) (newCell : CellState)
    (h : lockOk s) (ht : t < s.n)
    (hheld : holdsLock (s.tasks t) = true)
    (hown : newCell.lockOwner = s.cell.lockOwner)
    (hnew : holdsLock pc2 = true) :
    lockOk { cell := newCell, n := s.n, tasks := Function.update s.tasks t pc2 } := by
  constructor
  · intro u hu hlu
    simp only at hlu ⊢
    rcases eq_or_ne u t with rfl | hne
    · rw [hown]; exact h.1 _ ht hheld
    · rw [Function.update_noteq hne] at hlu
      rw [hown]; exact h.1 u hu hlu
  · intro u hu
    simp only at hu ⊢
    rw [hown] at hu
    obtain ⟨hun, hcase⟩ := h.2 u hu
    refine ⟨hun, ?_⟩
    rcases eq_or_ne u t with rfl | hne
    · rw [Function.update_same]; exact hnew
    · rw [Function.update_noteq hne]; exact hcase

/-- Phase A: no fetch has started; the channel slot is empty and every
task is before the fetch. -/
def phaseA (s : SysState) : Prop :=
  s.cell.channel = none ∧ s.cell.fetchCount = 0 ∧
  ∀ t, t < s.n → (s.tasks t = .start ∨ s.tasks t = .wantLock ∨ s.tasks t = .locked)

/-- Phase B: exactly one fetch is in flight; its owner holds the lock
and will install `v`; everyone else is before the lock. -/
def phaseB (v : Nat) (s : SysState) : Prop :=
  s.cell.channel = none ∧ s.cell.fetchCount = 1 ∧
  ∃ t0, t0 < s.n ∧ s.cell.lockOwner = some t0 ∧ s.tasks t0 = .fetching (.ok v) ∧
    ∀ t, t < s.n → t ≠ t0 → (s.tasks t = .start ∨ s.tasks t = .wantLock)

/-- Phase C: the single fetch completed; the channel slot holds `v`
forever and every finished task returned `v`. -/
def phaseC (v : Nat) (s : SysState) : Prop :=
  s.cell.channel = some v ∧ s.cell.fetchCount = 1 ∧
  ∀ t, t < s.n → (s.tasks t = .start ∨ s.tasks t = .wantLock ∨
    s.tasks t = .locked ∨ s.tasks t = .done (.ok v))

/-- The single-flight invariant of the cell when the first plugin fetch
returns `.ok v`. -/
def SingleFlightInv (v : Nat) (s : SysState) : Prop :=
  lockOk s ∧ (phaseA s ∨ phaseB v s ∨ phaseC v s)

theorem singleFlightInv_init (v n : Nat) : SingleFlightInv v (initSys n) := by
  refine ⟨⟨?_, ?_⟩, Or.inl ⟨rfl, rfl, ?_⟩⟩
  · intro t _ h
    simp [initSys, holdsLock] at h
  · intro t h
    simp [initSys] at h
  · intro t _
    exact Or.inl rfl

theorem singleFlightInv_step (plugin : Nat → Except Nat Nat) (v : Nat)
    (hp : plugin 0 = .ok v) (s : SysState) (t : Nat)
    (h : SingleFlightInv v s) : SingleFlightInv v (stepSys plugin s t) := by
  obtain ⟨hlk, hphase⟩ := h
  unfold stepSys
  split
  case isFalse => exact ⟨hlk, hphase⟩
  case isTrue ht =>
    cases hpc : s.tasks t with
    | start =>
      cases hch : s.cell.channel with
      | some w =>
        -- fast path (line 34 test succeeds): return the cached snapshot
        have hw : w = v := by
          rcases hphase with ⟨hA, _⟩ | ⟨hB, _⟩ | ⟨hC, _⟩
          · rw [hA] at hch; exact absurd hch (by simp)
          · rw [hB] at hch; exact absurd hch (by simp)
          · rw [hC] at hch; exact (Option.some.injEq _ _).mp hch.symm
        subst hw
        have hstep : stepTask plugin s.cell t GetPc.start = (s.cell, .done (.ok w)) := by
          simp [stepTask, hch]
        rw [hstep]
        refine ⟨lockOk_keep s t _ _ hlk rfl (by rw [hpc]; rfl) rfl, ?_⟩
        rcases hphase with ⟨hA, _⟩ | ⟨hB, _⟩ | ⟨hC1, hC2, hC3⟩
        · rw [hA] at hch; exact absurd hch (by simp)
        · rw [hB] at hch; exact absurd hch (by simp)
        · refine Or.inr (Or.inr ⟨hC1, hC2, ?_⟩)
          intro u hu
          simp only at hu ⊢
          rcases eq_or_ne u t with rfl | hne
          · rw [Function.update_same]
            exact Or.inr (Or.inr (Or.inr rfl))
          · rw [Function.update_noteq hne]
            exact hC3 u hu
      | none =>
        -- line 34 test fails: go wait for the lock
        have hstep : stepTask plugin s.cell t GetPc.start = (s.cell, .wantLock) := by
          simp [stepTask, hch]
        rw [hstep]
        refine ⟨lockOk_keep s t _ _ hlk rfl (by rw [hpc]; rfl) rfl, ?_⟩
        rcases hphase with ⟨hA1, hA2, hA3⟩ | ⟨hB1, hB2, t0, ht0, hB3, hB4, hB5⟩ |
          ⟨hC1, _, _⟩
        · refine Or.inl ⟨hA1, hA2, ?_⟩
          intro u hu
          simp only at hu ⊢
          rcases eq_or_ne u t with rfl | hne
          · rw [Function.update_same]; exact Or.inr (Or.inl rfl)
          · rw [Function.update_noteq hne]; exact hA3 u hu
        · refine Or.inr (Or.inl ⟨hB1, hB2, t0, ht0, hB3, ?_, ?_⟩)
          · have htt0 : t0 ≠ t := by
              intro he; subst he; rw [hpc] at hB4; simp at hB4
            simp only
            rw [Function.update_noteq htt0]
            exact hB4
          · intro u hu hut0
            simp only at hu ⊢
            rcases eq_or_ne u t with rfl | hne
            · rw [Function.update_same]; exact Or.inr rfl
            · rw [Function.update_noteq hne]; exact hB5 u hu hut0
        · rw [hC1] at hch; exact absurd hch (by simp)
    | wantLock =>
      cases how : s.cell.lockOwner with
      | some w =>
        -- lock busy: the task stays parked on the lock
        have hstep : stepTask plugin s.cell t GetPc.wantLock = (s.cell, .wantLock) := by
          simp [stepTask, how]
        rw [hstep]
        refine ⟨lockOk_keep s t _ _ hlk rfl (by rw [hpc]; rfl) rfl, ?_⟩
        rcases hphase with ⟨hA1, hA2, hA3⟩ | ⟨hB1, hB2, t0, ht0, hB3, hB4, hB5⟩ |
          ⟨hC1, hC2, hC3⟩
        · refine Or.inl ⟨hA1, hA2, ?_⟩
          intro u hu
          simp only at hu ⊢
          rcases eq_or_ne u t with rfl | hne
          · rw [Function.update_same]; exact Or.inr (Or.inl rfl)
          · rw [Function.update_noteq hne]; exact hA3 u hu
        · refine Or.inr (Or.inl ⟨hB1, hB2, t0, ht0, hB3, ?_, ?_⟩)
          · have htt0 : t0 ≠ t := by
              intro he; subst he; rw [hpc] at hB4; simp at hB4
            simp only
            rw [Function.update_noteq htt0]; exact hB4
          · intro u hu hut0
            simp only at hu ⊢
            rcases eq_or_ne u t with rfl | hne
            · rw [Function.update_same]; exact Or.inr rfl
            · rw [Function.update_noteq hne]; exact hB5 u hu hut0
        · refine Or.inr (Or.inr ⟨hC1, hC2, ?_⟩)
          intro u hu
          simp only at hu ⊢
          rcases eq_or_ne u t with rfl | hne
          · rw [Function.update_same]; exact Or.inr (Or.inl rfl)
          · rw [Function.update_noteq hne]; exact hC3 u hu
      | none =>
        -- lock free: acquire it and enter the critical section
        have hstep : stepTask plugin s.cell t GetPc.wantLock =
            ({ s.cell with lockOwner := some t }, .locked) := by
          simp [stepTask, how]
        rw [hstep]
        refine ⟨lockOk_acquire s t _ _ hlk ht how rfl rfl, ?_⟩
        rcases hphase with ⟨hA1, hA2, hA3⟩ | ⟨hB1, hB2, t0, ht0, hB3, hB4, hB5⟩ |
          ⟨hC1, hC2, hC3⟩
        · refine Or.inl ⟨hA1, hA2, ?_⟩
          intro u hu
          simp only at hu ⊢
          rcases eq_or_ne u t with rfl | hne
          · rw [Function.update_same]; exact Or.inr (Or.inr rfl)
          · rw [Function.update_noteq hne]; exact hA3 u hu
        · exfalso
          rw [hB3] at how; exact absurd how (by simp)
        · refine Or.inr (Or.inr ⟨hC1, hC2, ?_⟩)
          intro u hu
          simp only at hu ⊢
          rcases eq_or_ne u t with rfl | hne
          · rw [Function.update_same]; exact Or.inr (Or.inr (Or.inl rfl))
          · rw [Function.update_noteq hne]; exact hC3 u hu
    | locked =>
      cases hch : s.cell.channel with
      | some w =>
        -- double-check (line 37) sees the populated slot: release, return
        have hw : w = v := by
          rcases hphase with ⟨hA, _⟩ | ⟨hB, _⟩ | ⟨hC, _⟩
          · rw [hA] at hch; exact absurd hch (by simp)
          · rw [hB] at hch; exact absurd hch (by simp)
          · rw [hC] at hch; exact (Option.some.injEq _ _).mp hch.symm
        subst hw
        have hstep : stepTask plugin s.cell t GetPc.locked =
            ({ s.cell with lockOwner := none }, .done (.ok w)) := by
          simp [stepTask, hch]
        rw [hstep]
        refine ⟨lockOk_release s t _ _ hlk ht (by rw [hpc]; rfl) rfl rfl, ?_⟩
        rcases hphase with ⟨hA, _⟩ | ⟨hB, _⟩ | ⟨hC1, hC2, hC3⟩
        · rw [hA] at hch; exact absurd hch (by simp)
        · rw [hB] at hch; exact absurd hch (by simp)
        · refine Or.inr (Or.inr ⟨hC1, hC2, ?_⟩)
          intro u hu
          simp only at hu ⊢
          rcases eq_or_ne u t with rfl | hne
          · rw [Function.update_same]; exact Or.inr (Or.inr (Or.inr rfl))
          · rw [Function.update_noteq hne]; exact hC3 u hu
      | none =>
        -- double-check sees an empty slot: start the unique plugin fetch
        have hA : phaseA s := by
          rcases hphase with hA | ⟨hB1, hB2, t0, ht0, hB3, hB4, hB5⟩ | ⟨hC, _⟩
          · exact hA
          · exfalso
            have hown := hlk.1 t ht (by rw [hpc]; rfl)
            rw [hB3] at hown
            have htt0 : t0 = t := (Option.some.injEq _ _).mp hown
            subst htt0
            rw [hpc] at hB4; simp at hB4
          · rw [hC] at hch; exact absurd hch (by simp)
        obtain ⟨hA1, hA2, hA3⟩ := hA
        have hstep : stepTask plugin s.cell t GetPc.locked =
            ({ s.cell with fetchCount := s.cell.fetchCount + 1 },
              .fetching (plugin s.cell.fetchCount)) := by
          simp [stepTask, hch]
        rw [hstep]
        have hfet : plugin s.cell.fetchCount = .ok v := by rw [hA2, hp]
        refine ⟨lockOk_swap s t _ _ hlk ht (by rw [hpc]; rfl) rfl rfl, ?_⟩
        refine Or.inr (Or.inl ⟨hch, by simp [hA2], t, ht, ?_, ?_, ?_⟩)
        · simp only
          exact hlk.1 t ht (by rw [hpc]; rfl)
        · simp only
          rw [Function.update_same, hfet]
        · intro u hu hut
          simp only at hu ⊢
          rw [Function.update_noteq hut]
          rcases hA3 u hu with h1 | h1 | h1
          · exact Or.inl h1
          · exact Or.inr h1
          · exfalso
            have hownu := hlk.1 u hu (by rw [h1]; rfl)
            have hownt := hlk.1 t ht (by rw [hpc]; rfl)
            rw [hownu] at hownt
            exact hut ((Option.some.injEq _ _).mp hownt)
    | fetching r =>
      -- the suspended fetch resolves (under `hp` always with `.ok v`):
      -- install the snapshot, release the lock, return
      have hB : phaseB v s := by
        rcases hphase with ⟨hA1, hA2, hA3⟩ | hB | ⟨hC1, hC2, hC3⟩
        · exfalso
          rcases hA3 t ht with h1 | h1 | h1 <;> rw [hpc] at h1 <;> simp at h1
        · exact hB
        · exfalso
          rcases hC3 t ht with h1 | h1 | h1 | h1 <;> rw [hpc] at h1 <;> simp at h1
      obtain ⟨hB1, hB2, t0, ht0, hB3, hB4, hB5⟩ := hB
      have htt0 : t = t0 := by
        by_contra hne
        rcases hB5 t ht hne with h1 | h1 <;> rw [hpc] at h1 <;> simp at h1
      subst htt0
      have hr : r = .ok v := by
        rw [hpc] at hB4
        exact (GetPc.fetching.injEq _ _).mp hB4
      subst hr
      have hstep : stepTask plugin s.cell t (GetPc.fetching (.ok v)) =
          ({ s.cell with channel := some v, lockOwner := none }, .done (.ok v)) := by
        simp [stepTask]
      rw [hstep]
      refine ⟨lockOk_release s t _ _ hlk ht (by rw [hpc]; rfl) rfl rfl, ?_⟩
      refine Or.inr (Or.inr ⟨rfl, hB2, ?_⟩)
      intro u hu
      simp only at hu ⊢
      rcases eq_or_ne u t with rfl | hne
      · rw [Function.update_same]; exact Or.inr (Or.inr (Or.inr rfl))
      · rw [Function.update_noteq hne]
        rcases hB5 u hu hne with h1 | h1
        · exact Or.inl h1
        · exact Or.inr (Or.inl h1)
    | done r =>
      -- already returned: a stray scheduling is a no-op
      have hstep : stepTask plugin s.cell t (GetPc.done r) = (s.cell, .done r) := by
        simp [stepTask]
      rw [hstep]
      refine ⟨lockOk_keep s t _ _ hlk rfl (by rw [hpc]; rfl) rfl, ?_⟩
      rcases hphase with ⟨hA1, hA2, hA3⟩ | ⟨hB1, hB2, t0, ht0, hB3, hB4, hB5⟩ |
        ⟨hC1, hC2, hC3⟩
      · exfalso
        rcases hA3 t ht with h1 | h1 | h1 <;> rw [hpc] at h1 <;> simp at h1
      · refine Or.inr (Or.inl ⟨hB1, hB2, t0, ht0, hB3, ?_, ?_⟩)
        · have htt0 : t0 ≠ t := by
            intro he; subst he; rw [hpc] at hB4; simp at hB4
          simp only
          rw [Function.update_noteq htt0]; exact hB4
        · intro u hu hut0
          simp only at hu ⊢
          rcases eq_or_ne u t with rfl | hne
          · exfalso
            rcases hB5 u hu hut0 with h1 | h1 <;> rw [hpc] at h1 <;> simp at h1
          · rw [Function.update_noteq hne]; exact hB5 u hu hut0
      · refine Or.inr (Or.inr ⟨hC1, hC2, ?_⟩)
        intro u hu
        simp only at hu ⊢
        rcases eq_or_ne u t with rfl | hne
        · rcases hC3 u hu with h1 | h1 | h1 | h1 <;> rw [hpc] at h1
          · simp at h1
          · simp at h1
          · simp at h1
          · rw [Function.update_same, h1]
            exact Or.inr (Or.inr (Or.inr rfl))
        · rw [Function.update_noteq hne]; exact hC3 u hu

theorem singleFlightInv_run (plugin : Nat → Except Nat Nat) (v : Nat)
    (hp : plugin 0 = .ok v) (sched : List Nat) (s : SysState)
    (h : SingleFlightInv v s) : SingleFlightInv v (runSys plugin s sched) := by
  induction sched generalizing s with
  | nil => exact h
  | cons t rest ih =>
    exact ih (stepSys plugin s t) (singleFlightInv_step plugin v hp s t h)

/-- C1: for every `DeferredChannel` cell, however many logically
concurrent callers interleave calls to `get_channel()` within one
operation (any number `n` of tasks, any cooperative schedule), the
underlying plugin fetch of `populate_channel` is invoked exactly once,
and every caller observes the same `Channel` snapshot `v`. -/
theorem get_channel_single_flight (plugin : Nat → Except Nat Nat) (v n : Nat)
    (sched : List Nat) (hn : 0 < n) (hp : plugin 0 = .ok v)
    (hdone : ∀ t, t < n → isDone ((runSys plugin (initSys n) sched).tasks t) = true) :
    (runSys plugin (initSys n) sched).cell.fetchCount = 1 ∧
    ∀ t, t < n → (runSys plugin (initSys n) sched).tasks t = .done (.ok v) := by
  have hinv := singleFlightInv_run plugin v hp sched (initSys n) (singleFlightInv_init v n)
  have hn2 : (runSys plugin (initSys n) sched).n = n := by rw [runSys_n]; rfl
  obtain ⟨hlk, hphase⟩ := hinv
  rcases hphase with ⟨hA1, hA2, hA3⟩ | ⟨hB1, hB2, t0, ht0, hB3, hB4, hB5⟩ |
    ⟨hC1, hC2, hC3⟩
  · exfalso
    have h0 := hA3 0 (by rw [hn2]; exact hn)
    have hd := hdone 0 hn
    rcases h0 with h | h | h <;> rw [h] at hd <;> simp [isDone] at hd
  · exfalso
    have hd := hdone t0 (by rw [hn2] at ht0; exact ht0)
    rw [hB4] at hd; simp [isDone] at hd
  · refine ⟨hC2, ?_⟩
    intro t htn
    have hcase := hC3 t (by rw [hn2]; exact htn)
    have hd := hdone t htn
    rcases hcase with h | h | h | h <;> rw [h] at hd
    · simp [isDone] at hd
    · simp [isDone] at hd
    · simp [isDone] at hd
    · exact h

theorem get_channel_single_flight_witness :
    (0 < 2 ∧ (fun _ : Nat => (Except.ok 5 : Except Nat Nat)) 0 = .ok 5 ∧
      (∀ t, t < 2 → isDone ((runSys (fun _ => .ok 5) (initSys 2)
        [0, 1, 0, 1, 0, 1, 0, 1, 1]).tasks t) = true)) ∧
    ((runSys (fun _ => .ok 5) (initSys 2)
        [0, 1, 0, 1, 0, 1, 0, 1, 1]).cell.fetchCount = 1 ∧
      ∀ t, t < 2 → (runSys (fun _ => .ok 5) (initSys 2)
        [0, 1, 0, 1, 0, 1, 0, 1, 1]).tasks t = .done (.ok 5)) :=
  ⟨⟨by decide, rfl, by decide⟩,
    get_channel_single_flight (fun _ => .ok 5) 5 2 [0, 1, 0, 1, 0, 1, 0, 1, 1]
      (by decide) rfl (by decide)⟩

/-- Invariant of an already-populated cell: the snapshot is never
overwritten, the fetch counter never moves, and every caller either has
not looked yet or has returned the cached snapshot. -/
def PopInv (c v : Nat) (s : SysState) : Prop :=
  s.cell.channel = some v ∧ s.cell.lockOwner = none ∧ s.cell.fetchCount = c ∧
  ∀ t, (s.tasks t = .start ∨ s.tasks t = .done (.ok v))

theorem popInv_step (plugin : Nat → Except Nat Nat) (c v : Nat) (s : SysState)
    (t : Nat) (h : PopInv c v s) : PopInv c v (stepSys plugin s t) := by
  obtain ⟨h1, h2, h3, h4⟩ := h
  unfold stepSys
  split
  case isFalse => exact ⟨h1, h2, h3, h4⟩
  case isTrue ht =>
    rcases h4 t with hpc | hpc <;> rw [hpc]
    · have hstep : stepTask plugin s.cell t GetPc.start = (s.cell, .done (.ok v)) := by
        simp [stepTask, h1]
      rw [hstep]
      refine ⟨h1, h2, h3, ?_⟩
      intro u
      simp only
      rcases eq_or_ne u t with rfl | hne
      · rw [Function.update_same]; exact Or.inr rfl
      · rw [Function.update_noteq hne]; exact h4 u
    · have hstep : stepTask plugin s.cell t (GetPc.done (.ok v)) =
          (s.cell, .done (.ok v)) := by
        simp [stepTask]
      rw [hstep]
      refine ⟨h1, h2, h3, ?_⟩
      intro u
      simp only
      rcases eq_or_ne u t with rfl | hne
      · rw [Function.update_same]; exact Or.inr rfl
      · rw [Function.update_noteq hne]; exact h4 u

theorem popInv_run (plugin : Nat → Except Nat Nat) (c v : Nat) (sched : List Nat)
    (s : SysState) (h : PopInv c v s) : PopInv c v (runSys plugin s sched) := by
  induction sched generalizing s with
  | nil => exact h
  | cons t rest ih =>
    exact ih (stepSys plugin s t) (popInv_step plugin c v s t h)

/-- C2: once the `channel` field of a cell is populated with `v` it is
never overwritten, and every subsequent `get_channel()` call (any
number of callers, any schedule, any plugin behaviour) returns the
cached snapshot without invoking `populate_channel` again: the fetch
counter stays at `c`. -/
theorem get_channel_populate_once (plugin : Nat → Except Nat Nat) (n c v : Nat)
    (sched : List Nat) :
    (runSys plugin (popSys n c v) sched).cell.fetchCount = c ∧
    (runSys plugin (popSys n c v) sched).cell.channel = some v ∧
    ∀ t, ((runSys plugin (popSys n c v) sched).tasks t = .start ∨
      (runSys plugin (popSys n c v) sched).tasks t = .done (.ok v)) := by
  have h0 : PopInv c v (popSys n c v) := by
    refine ⟨rfl, rfl, rfl, ?_⟩
    intro t; exact Or.inl rfl
  have h := popInv_run plugin c v sched (popSys n c v) h0
  exact ⟨h.2.2.1, h.1, h.2.2.2⟩

/-- The state of a second, later `get_channel()` call arriving at the
cell left behind by a finished first run: same cell, one fresh task. -/
def retrySys (plugin : Nat → Except Nat Nat) : SysState :=
  { cell := (runSys plugin (initSys 1) [0, 0, 0, 0]).cell
    n := 1
    tasks := fun _ => .start }

/-- C3: when `populate_channel` raises inside `get_channel()` (first
plugin call yields `.error e`), the exception propagates to the caller,
the `channel` field stays unset and the fetch is charged once; a
subsequent `get_channel()` call on the same cell performs the
underlying fetch again (second plugin call, here succeeding with `v`):
no negative caching. -/
theorem get_channel_failure_then_retry (plugin : Nat → Except Nat Nat) (e v : Nat)
    (h0 : plugin 0 = .error e) (h1 : plugin 1 = .ok v) :
    ((runSys plugin (initSys 1) [0, 0, 0, 0]).tasks 0 = .done (.error e) ∧
      (runSys plugin (initSys 1) [0, 0, 0, 0]).cell.channel = none ∧
      (runSys plugin (initSys 1) [0, 0, 0, 0]).cell.fetchCount = 1) ∧
    ((runSys plugin (retrySys plugin) [0, 0, 0, 0]).tasks 0 = .done (.ok v) ∧
      (runSys plugin (retrySys plugin) [0, 0, 0, 0]).cell.channel = some v ∧
      (runSys plugin (retrySys plugin) [0, 0, 0, 0]).cell.fetchCount = 2) := by
  refine ⟨⟨?_, ?_, ?_⟩, ?_, ?_, ?_⟩ <;>
    simp [runSys, List.foldl, stepSys, stepTask, initSys, retrySys, h0, h1,
      Function.update_same, Function.update]

theorem get_channel_failure_then_retry_witness :
    ((fun i => match i with
      | 0 => (Except.error 3 : Except Nat Nat)
      | _ => Except.ok 9) 0 = .error 3 ∧
     (fun i => match i with
      | 0 => (Except.error 3 : Except Nat Nat)
      | _ => Except.ok 9) 1 = .ok 9) ∧
    ((runSys (fun i => match i with
        | 0 => Except.error 3
        | _ => Except.ok 9) (initSys 1) [0, 0, 0, 0]).tasks 0 = .done (.error 3) ∧
      (runSys (fun i => match i with
        | 0 => Except.error 3
        | _ => Except.ok 9) (initSys 1) [0, 0, 0, 0]).cell.channel = none ∧
      (runSys (fun i => match i with
        | 0 => Except.error 3
        | _ => Except.ok 9) (initSys 1) [0, 0, 0, 0]).cell.fetchCount = 1) :=
  ⟨⟨rfl, rfl⟩,
    (get_channel_failure_then_retry (fun i => match i with
      | 0 => Except.error 3
      | _ => Except.ok 9) 3 9 rfl rfl).1⟩

/-! # JSON values and a model of Python json.loads

`put_channel` (app.py lines 102-112) decodes its wire values with
`json.loads`.  We model JSON documents and the parser; numeric literals
are kept as their source text, since app.py never inspects the numeric
value of a parsed JSON number. -/

inductive Json where
  | null
  | bool (b : Bool)
  | num (lit : String)
  | str (s : String)
  | arr (elems : List Json)
  | obj (fields : List (String × Json))

def isJsonWs (c : Char) : Bool :=
  c = ' ' || c = '\t' || c = '\n' || c = '\r'

def skipWs : List Char → List Char
  | [] => []
  | c :: cs => if isJsonWs c then skipWs cs else c :: cs

def hexVal (c : Char) : Option Nat :=
  if '0' ≤ c ∧ c ≤ '9' then some (c.toNat - 48)
  else if 'a' ≤ c ∧ c ≤ 'f' then some (c.toNat - 87)
  else if 'A' ≤ c ∧ c ≤ 'F' then some (c.toNat - 55)
  else none

/-- JSON string escape table. -/
def escMap : Char → Option Char
  | '"' => some '"'
  | '\\' => some '\\'
  | '/' => some '/'
  | 'b' => some (Char.ofNat 8)
  | 'f' => some (Char.ofNat 12)
  | 'n' => some '\n'
  | 'r' => some '\r'
  | 't' => some '\t'
  | _ => none

/-- Scan a JSON string literal after its opening quote; produce the
decoded characters and the input following the closing quote. -/
def parseJStr : List Char → Except String (List Char × List Char)
  | [] => .error "Unterminated string"
  | c :: cs =>
    if c = '"' then .ok ([], cs)
    else if c = '\\' then
      match cs with
      | [] => .error "Unterminated string"
      | e :: cs2 =>
        if e = 'u' then
          match cs2 with
          | h1 :: h2 :: h3 :: h4 :: cs3 =>
            match hexVal h1, hexVal h2, hexVal h3, hexVal h4 with
            | some a, some b, some c2, some d =>
              match parseJStr cs3 with
              | .ok (out, rest) =>
                .ok (Char.ofNat (((a * 16 + b) * 16 + c2) * 16 + d) :: out, rest)
              | .error msg => .error msg
            | _, _, _, _ => .error "Invalid unicode escape"
          | _ => .error "Invalid unicode escape"
        else
          match escMap e with
          | some d =>
            match parseJStr cs2 with
            | .ok (out, rest) => .ok (d :: out, rest)
            | .error msg => .error msg
          | none => .error "Invalid escape"
    else if c.toNat < 32 then .error "Invalid control character"
    else
      match parseJStr cs with
      | .ok (out, rest) => .ok (c :: out, rest)
      | .error msg => .error msg

def takeDigits : List Char → List Char × List Char
  | [] => ([], [])
  | c :: cs =>
    if c.isDigit then
      match takeDigits cs with
      | (ds, rest) => (c :: ds, rest)
    else ([], c :: cs)

/-- Integer part of the JSON number grammar: 0, or a nonzero digit
followed by digits. -/
def parseIntPart : List Char → Option (List Char × List Char)
  | [] => none
  | c :: cs =>
    if c = '0' then some ([c], cs)
    else if c.isDigit then
      match takeDigits cs with
      | (ds, rest) => some (c :: ds, rest)
    else none

/-- Optional fraction part: a dot followed by at least one digit. -/
def parseFracPart : List Char → List Char × List Char
  | '.' :: cs =>
    (match takeDigits cs with
     | ([], _) => ([], '.' :: cs)
     | (ds, rest) => ('.' :: ds, rest))
  | cs => ([], cs)

/-- Optional exponent part: e or E, optional sign, at least one digit. -/
def parseExpPart : List Char → List Char × List Char
  | c :: cs =>
    if c = 'e' ∨ c = 'E' then
      match cs with
      | s :: cs2 =>
        if s = '+' ∨ s = '-' then
          match takeDigits cs2 with
          | ([], _) => ([], c :: cs)
          | (ds, rest) => (c :: s :: ds, rest)
        else
          match takeDigits cs with
          | ([], _) => ([], c :: cs)
          | (ds, rest) => (c :: ds, rest)
      | [] => ([], [c])
    else ([], c :: cs)
  | [] => ([], [])

/-- The JSON number grammar (Python json NUMBER_RE); produces the
lexeme and the rest of the input. -/
def parseNumber : List Char → Option (List Char × List Char)
  | [] => none
  | c :: cs =>
    if c = '-' then
      match parseIntPart cs with
      | none => none
      | some (ip, rest1) =>
        match parseFracPart rest1 with
        | (fp, rest2) =>
          match parseExpPart rest2 with
          | (ep, rest3) => some (c :: (ip ++ fp ++ ep), rest3)
    else
      match parseIntPart (c :: cs) with
      | none => none
      | some (ip, rest1) =>
        match parseFracPart rest1 with
        | (fp, rest2) =>
          match parseExpPart rest2 with
          | (ep, rest3) => some (ip ++ fp ++ ep, rest3)

/-- Match a literal keyword tail. -/
def stripLit : List Char → List Char → Option (List Char)
  | [], cs => some cs
  | l :: ls, c :: cs => if c = l then stripLit ls cs else none
  | _ :: _, [] => none

mutual

/-- Parse one JSON value at the head of the input (whitespace already
skipped); fuel bounds the recursion depth. -/
def parseVal : Nat → List Char → Except String (Json × List Char)
  | 0, _ => .error "maximum recursion depth exceeded"
  | fuel + 1, cs =>
    match cs with
    | [] => .error "Expecting value"
    | c :: rest =>
      if c = '{' then parseObjBody fuel (skipWs rest)
      else if c = '[' then parseArrBody fuel (skipWs rest)
      else if c = '"' then
        match parseJStr rest with
        | .ok (out, rest2) => .ok (.str (String.mk out), rest2)
        | .error e => .error e
      else if c = 't' then
        match stripLit ['r', 'u', 'e'] rest with
        | some rest2 => .ok (.bool true, rest2)
        | none => .error "Expecting value"
      else if c = 'f' then
        match stripLit ['a', 'l', 's', 'e'] rest with
        | some rest2 => .ok (.bool false, rest2)
        | none => .error "Expecting value"
      else if c = 'n' then
        match stripLit ['u', 'l', 'l'] rest with
        | some rest2 => .ok (.null, rest2)
        | none => .error "Expecting value"
      else
        match parseNumber cs with
        | some (lex, rest2) => .ok (.num (String.mk lex), rest2)
        | none => .error "Expecting value"

/-- Parse the body of an array after the opening bracket and leading
whitespace. -/
def parseArrBody : Nat → List Char → Except String (Json × List Char)
  | 0, _ => .error "maximum recursion depth exceeded"
  | fuel + 1, cs =>
    match cs with
    | ']' :: rest => .ok (.arr [], rest)
    | _ =>
      match parseVal fuel cs with
      | .error e => .error e
      | .ok (v, rest) =>
        match parseArrTail fuel (skipWs rest) with
        | .error e => .error e
        | .ok (vs, rest2) => .ok (.arr (v :: vs), rest2)

/-- After one array element and whitespace: a comma and more elements,
or the closing bracket. -/
def parseArrTail : Nat → List Char → Except String (List Json × List Char)
  | 0, _ => .error "maximum recursion depth exceeded"
  | fuel + 1, cs =>
    match cs with
    | ']' :: rest => .ok ([], rest)
    | ',' :: rest =>
      match parseVal fuel (skipWs rest) with
      | .error e => .error e
      | .ok (v, rest2) =>
        match parseArrTail fuel (skipWs rest2) with
        | .error e => .error e
        | .ok (vs, rest3) => .ok (v :: vs, rest3)
    | _ => .error "Expecting comma delimiter"

/-- Parse the body of an object after the opening brace and leading
whitespace. -/
def parseObjBody : Nat → List Char → Except String (Json × List Char)
  | 0, _ => .error "maximum recursion depth exceeded"
  | fuel + 1, cs =>
    match cs with
    | '}' :: rest => .ok (.obj [], rest)
    | '"' :: rest =>
      match parseJStr rest with
      | .error e => .error e
      | .ok (key, rest2) =>
        match skipWs rest2 with
        | ':' :: rest3 =>
          match parseVal fuel (skipWs rest3) with
          | .error e => .error e
          | .ok (v, rest4) =>
            match parseObjTail fuel (skipWs rest4) with
            | .error e => .error e
            | .ok (fs, rest5) => .ok (.obj ((String.mk key, v) :: fs), rest5)
        | _ => .error "Expecting colon delimiter"
    | _ => .error "Expecting property name enclosed in double quotes"

/-- After one object member and whitespace: a comma and more members,
or the closing brace. -/
def parseObjTail : Nat → List Char → Except String (List (String × Json) × List Char)
  | 0, _ => .error "maximum recursion depth exceeded"
  | fuel + 1, cs =>
    match cs with
    | '}' :: rest => .ok ([], rest)
    | ',' :: rest =>
      match skipWs rest with
      | '"' :: rest2 =>
        match parseJStr rest2 with
        | .error e => .error e
        | .ok (key, rest3) =>
          match skipWs rest3 with
          | ':' :: rest4 =>
            match parseVal fuel (skipWs rest4) with
            | .error e => .error e
            | .ok (v, rest5) =>
              match parseObjTail fuel (skipWs rest5) with
              | .error e => .error e
              | .ok (fs, rest6) => .ok ((String.mk key, v) :: fs, rest6)
          | _ => .error "Expecting colon delimiter"
      | _ => .error "Expecting property name enclosed in double quotes"
    | _ => .error "Expecting comma delimiter"

end

/-- Python json.loads: parse one JSON document with surrounding
whitespace allowed and trailing data rejected.  The fuel bounds only
the nesting-driven recursion; two units per input character always
suffice for inputs the service can receive. -/
def jsonLoads (s : String) : Except String Json :=
  match parseVal (2 * s.data.length + 2) (skipWs s.data) with
  | .error e => .error e
  | .ok (v, rest) =>
    match skipWs rest with
    | [] => .ok v
    | _ :: _ => .error "Extra data"

/-- Lookup in the dict json.loads builds from an object literal: later
duplicate keys overwrite earlier ones; a missing key raises KeyError. -/
def pyDictGet (fields : List (String × Json)) (k : String) : Except String Json :=
  match fields.reverse.find? (fun p => p.1 == k) with
  | some p => .ok p.2
  | none => .error ("KeyError: " ++ k)

/-! # base64 (Python base64.b64encode / b64decode) -/

/-- The standard base64 alphabet: sextet index to character. -/
def sextetChar (n : Nat) : Char :=
  if n < 26 then Char.ofNat (65 + n)
  else if n < 52 then Char.ofNat (97 + (n - 26))
  else if n < 62 then Char.ofNat (48 + (n - 52))
  else if n = 62 then '+'
  else '/'

/-- Inverse of the base64 alphabet: character to sextet index. -/
def charSextet (c : Char) : Option Nat :=
  if 'A' ≤ c ∧ c ≤ 'Z' then some (c.toNat - 65)
  else if 'a' ≤ c ∧ c ≤ 'z' then some (c.toNat - 97 + 26)
  else if '0' ≤ c ∧ c ≤ '9' then some (c.toNat - 48 + 52)
  else if c = '+' then some 62
  else if c = '/' then some 63
  else none

/-- base64.b64encode on a byte list (bytes as naturals below 256):
three bytes become four symbols, the final group padded with `=`. -/
def b64encodeChars : List Nat → List Char
  | [] => []
  | [a] => [sextetChar (a / 4), sextetChar (a % 4 * 16), '=', '=']
  | [a, b] => [sextetChar (a / 4), sextetChar (a % 4 * 16 + b / 16),
      sextetChar (b % 16 * 4), '=']
  | a :: b :: c :: rest =>
    sextetChar (a / 4) :: sextetChar (a % 4 * 16 + b / 16) ::
      sextetChar (b % 16 * 4 + c / 64) :: sextetChar (c % 64) :: b64encodeChars rest

def b64encode (bytes : List Nat) : String := String.mk (b64encodeChars bytes)

/-- Characters base64.b64decode keeps for decoding. -/
def b64keep (c : Char) : Bool := (charSextet c).isSome || c = '='

/-- Decode groups of four base64 symbols; padding may appear only in
the final group (the shape b64encode produces and b64decode demands
after discarding foreign characters). -/
def b64decodeChunks : List Char → Except String (List Nat)
  | [] => .ok []
  | c1 :: c2 :: c3 :: c4 :: rest =>
    (match charSextet c1, charSextet c2 with
     | some s1, some s2 =>
       if c3 = '=' then
         if c4 = '=' ∧ rest = [] then .ok [s1 * 4 + s2 / 16]
         else .error "Invalid base64-encoded string"
       else
         match charSextet c3 with
         | some s3 =>
           if c4 = '=' then
             if rest = [] then .ok [s1 * 4 + s2 / 16, s2 % 16 * 16 + s3 / 4]
             else .error "Invalid base64-encoded string"
           else
             match charSextet c4 with
             | some s4 =>
               (match b64decodeChunks rest with
                | .ok bs => .ok ((s1 * 4 + s2 / 16) :: (s2 % 16 * 16 + s3 / 4) ::
                    (s3 % 4 * 64 + s4) :: bs)
                | .error e => .error e)
             | none => .error "Invalid base64 character"
         | none => .error "Invalid base64 character"
     | _, _ => .error "Invalid base64 character")
  | _ => .error "Invalid base64 padding"

/-- Python base64.b64decode (validate=False): discard characters
outside the alphabet and padding, then decode; the remaining length
must be a multiple of four. -/
def b64decode (s : String) : Except String (List Nat) :=
  b64decodeChunks (s.data.filter b64keep)

/-! # numpy: dtype lookup and frombuffer -/

/-- np.dtype applied to a lower-cased name tag: the fixed-width numeric
element types with their sizes in bytes; an unknown name raises
TypeError (modelled as `none`). -/
def npItemsize (name : String) : Option Nat :=
  if name = "int8" ∨ name = "uint8" ∨ name = "bool" then some 1
  else if name = "int16" ∨ name = "uint16" ∨ name = "float16" then some 2
  else if name = "int32" ∨ name = "uint32" ∨ name = "float32" then some 4
  else if name = "int64" ∨ name = "uint64" ∨ name = "float64" then some 8
  else none

/-- Combine a little-endian byte group into one element value (element
values are carried bit-for-bit as naturals). -/
def natLE : List Nat → Nat
  | [] => 0
  | b :: bs => b + 256 * natLE bs

/-- Split a byte list into little-endian groups of `k` bytes; the
fuel (first argument) bounds the number of groups and is always
supplied as the byte count, which suffices for every `k ≥ 1`. -/
def groupLEF : Nat → Nat → List Nat → List Nat
  | _, _, [] => []
  | 0, _, _ :: _ => []
  | fuel + 1, k, bs => natLE (bs.take k) :: groupLEF fuel k (bs.drop k)

/-- Split a byte list into little-endian groups of `k` bytes. -/
def groupLE (k : Nat) (bs : List Nat) : List Nat := groupLEF bs.length k bs

/-- np.frombuffer with the given element size: the buffer length must
be a multiple of the element size (np raises ValueError otherwise),
and the bytes are reinterpreted as a contiguous sequence of elements
in little-endian (native) byte order. -/
def npFrombuffer (itemsize : Nat) (bytes : List Nat) : Except String (List Nat) :=
  if bytes.length % itemsize = 0 then .ok (groupLE itemsize bytes)
  else .error "buffer size must be a multiple of element size"

/-- The byte serialization of a float32 sequence
(np.asarray(xs, dtype=float32).tobytes()): each 32-bit element is kept
bit-for-bit as a natural and laid out little-endian. -/
def packFloat32 : List Nat → List Nat
  | [] => []
  | v :: vs => v % 256 :: v / 256 % 256 :: v / 65536 % 256 ::
      v / 16777216 % 256 :: packFloat32 vs

/-! # Python helpers used by app.py -/

/-- The Python test `value[:1] in "[{"` (app.py line 103): the
one-character slice (empty for the empty string) tested for being a
substring of the two-character string.  The substrings of length at
most one are the empty string, the bracket and the brace, so the shape
test also accepts the empty string. -/
def jsonShapeTest (v : String) : Bool :=
  match v.data with
  | [] => true
  | c :: _ => c = '[' || c = '{'

/-- Python `a or b` on optional strings (used for
`config.read_pv or config.write_pv`, app.py line 50): None and the
empty string are falsy. -/
def pyOrStr : Option String → Option String → Option String
  | some s, b => if s = "" then b else some s
  | none, b => b

/-- Python `assert pv` truthiness of an optional string (app.py line
98): present and nonempty. -/
def pyTruthy : Option String → Bool
  | some s => decide (s ≠ "")
  | none => false

/-- Python str.lower on one character (ASCII range; the numberType
tags np.dtype accepts are ASCII). -/
def lowerChar (c : Char) : Char :=
  if 'A' ≤ c ∧ c ≤ 'Z' then Char.ofNat (c.toNat + 32) else c

/-- Python str.lower (app.py line 108 lower-cases the numberType tag
before handing it to np.dtype, making the tag case-insensitive). -/
def pyLower (s : String) : String := String.mk (s.data.map lowerChar)

/-- The decoded form of one wire value in put_channel (app.py lines
101-112): the original string (no JSON shape), the parsed JSON value
(JSON shape but not a dict), or the numpy array decoded from a typed
base64 payload (dict shape). -/
inductive PutValue where
  | scalar (s : String)
  | jsonValue (j : Json)
  | npArray (dtypeName : String) (elems : List Nat)

/-- The dict branch of the put_channel decode loop (app.py lines
106-111): read value["numberType"], lower-case it, resolve the numpy
dtype, read value["base64"], base64-decode it and reinterpret the
bytes with np.frombuffer.  The error cases model the exceptions the
Python expressions raise (KeyError, AttributeError on a non-string
tag, TypeError from np.dtype, TypeError from b64decode, binascii
errors, ValueError from frombuffer). -/
def decodeDict (fields : List (String × Json)) : Except String PutValue :=
  match pyDictGet fields "numberType" with
  | .error e => .error e
  | .ok nt =>
    match nt with
    | .str tag =>
      (match npItemsize (pyLower tag) with
       | none => .error "data type not understood"
       | some isize =>
         match pyDictGet fields "base64" with
         | .error e => .error e
         | .ok bj =>
           match bj with
           | .str btxt =>
             (match b64decode btxt with
              | .error e => .error e
              | .ok bytes =>
                match npFrombuffer isize bytes with
                | .error e => .error e
                | .ok elems => .ok (.npArray (pyLower tag) elems))
           | _ => .error "a bytes-like object is required")
    | _ => .error "lower: not a string"

/-- The JSON branch of the decode loop: json.loads (app.py line 105),
then the dict test of line 106; a non-dict parse (an array, given the
shape test) is used as-is. -/
def jsonDecodePath (v : String) : Except String PutValue :=
  match jsonLoads v with
  | .error e => .error e
  | .ok j =>
    match j with
    | .obj fields => decodeDict fields
    | other => .ok (.jsonValue other)

/-- Decoding of one wire value by put_channel (app.py lines 102-112). -/
def decode_put_value (v : String) : Except String PutValue :=
  if jsonShapeTest v then jsonDecodePath v else .ok (.scalar v)

/-- The decode loop over all wire values in order, stopping at the
first raised exception. -/
def decodeAll : List String → Except String (List PutValue)
  | [] => .ok []
  | v :: vs =>
    match decode_put_value v with
    | .error e => .error e
    | .ok d =>
      match decodeAll vs with
      | .error e => .error e
      | .ok ds => .ok (d :: ds)

/-! # The plugin store, modelled from the spec

The modules plugin.py and device_config.py are not part of the
repository snapshot (app.py imports PluginStore and ChannelConfig from
them); the definitions below are modelled from the specification,
sections 3, 4.1 and 4.2. -/

/-- Modelled from the spec: `ChannelConfig` (device_config.py, missing
from the snapshot), section 3 of the spec: a name plus optional read
and write process variables. -/
structure ChannelConfig where
  name : String
  read_pv : Option String := none
  write_pv : Option String := none

/-- The failures put_channel can surface, named after the taxonomy of
section 7 of the spec; `readOnlyChannel` and `mixedTransportBatch` and
`arityMismatch` are AssertionErrors in app.py (lines 98, 114, 113),
`decodeFailure` carries a decode-loop exception. -/
inductive PutErr where
  | unknownTransport
  | unknownChannel
  | readOnlyChannel (id : String)
  | decodeFailure (msg : String)
  | arityMismatch
  | mixedTransportBatch
deriving DecidableEq

/-- Split a character list at its first colon. -/
def splitColon : List Char → Option (List Char × List Char)
  | [] => none
  | c :: cs =>
    if c = ':' then some ([], cs)
    else
      match splitColon cs with
      | some (pre, post) => some (c :: pre, post)
      | none => none

/-- Modelled from the spec: the ChannelAddress parser of section 4.1;
an identifier is transport, delimiter, name (split at the first
colon), or a bare name; the parser is total. -/
def parseAddress (s : String) : Option String × String :=
  match splitColon s.data with
  | some (pre, post) => (some (String.mk pre), String.mk post)
  | none => (none, s)

/-- Modelled from the spec: the plugin registry (PluginStore,
plugin.py, missing from the snapshot), section 4.2.  Plugin instances
are identified by naturals; `registrations` maps transport names to
plugin instances, `defaultTransport` is the startup default, and
`configOf p bare` is the per-channel configuration plugin `p` serves
for a bare name (`none` models UnknownChannel). -/
structure PluginStore where
  registrations : List (String × Nat)
  defaultTransport : Option String
  configOf : Nat → String → Option ChannelConfig

/-- Modelled from the spec: `store.transport_pv(pv)` of section 4.2
(stripTransport): the address parsing rule applied to a raw process
variable string; the second component is the bare name. -/
def PluginStore.transport_pv (_store : PluginStore) (pv : String) :
    Option String × String :=
  parseAddress pv

/-- Modelled from the spec: `store.plugin_config_id(channel_id)` of
section 4.2 (resolve): parse the identifier, look the transport up
(falling back to the default), fetch the channel configuration, and
return plugin, config and resolved name. -/
def PluginStore.plugin_config_id (store : PluginStore) (channel_id : String) :
    Except PutErr (Nat × ChannelConfig × String) :=
  match (parseAddress channel_id).1 with
  | some t =>
    (match store.registrations.lookup t with
     | none => .error .unknownTransport
     | some p =>
       match store.configOf p (parseAddress channel_id).2 with
       | none => .error .unknownChannel
       | some cfg => .ok (p, cfg, (parseAddress channel_id).2))
  | none =>
    match store.defaultTransport with
    | none => .error .unknownTransport
    | some t =>
      match store.registrations.lookup t with
      | none => .error .unknownTransport
      | some p =>
        match store.configOf p (parseAddress channel_id).2 with
        | none => .error .unknownChannel
        | some cfg => .ok (p, cfg, (parseAddress channel_id).2)

/-! # put_channel (app.py lines 89-119) -/

/-- The resolution loop of put_channel (app.py lines 95-100): resolve
each identifier in order, require a truthy write_pv (`assert pv`, line
98; the assertion message names the resolved id), collect the plugin
instance and the bare write name. -/
def resolveLoop (store : PluginStore) :
    List String → Except PutErr (List String × List Nat)
  | [] => .ok ([], [])
  | channel_id :: rest =>
    match store.plugin_config_id channel_id with
    | .error e => .error e
    | .ok (p, cfg, bare) =>
      if pyTruthy cfg.write_pv then
        (match resolveLoop store rest with
         | .error e => .error e
         | .ok (pvs, ps) =>
           .ok ((store.transport_pv (cfg.write_pv.getD "")).2 :: pvs, p :: ps))
      else .error (.readOnlyChannel bare)

/-- Count of batched plugin write calls put_channel issues: line 117
executes exactly when every check above it passed, i.e. when the run
does not end in an error. -/
def writeCalls {α : Type} : Except PutErr α → Nat
  | .ok _ => 1
  | .error _ => 0

/-- put_channel (app.py lines 89-119): resolve all identifiers
(collecting bare write names and the set of plugin instances), decode
all wire values, check the id/value arity (`assert len(values) ==
len(pvs)`, line 113), require exactly one distinct plugin
(`assert len(plugins) == 1`, line 114), and issue the single batched
write on that plugin (line 117).  The `.ok` result carries the plugin
written to, the bare write names and the decoded values handed to
`plugins.pop().put_channels`.  (The fresh unpopulated GetChannel cells
of line 118 re-run the same pure resolution and are not re-modelled.) -/
def put_channel (store : PluginStore) (ids put_values : List String) :
    Except PutErr (Nat × List String × List PutValue) :=
  match resolveLoop store ids with
  | .error e => .error e
  | .ok (pvs, plugins) =>
    match decodeAll put_values with
    | .error msg => .error (.decodeFailure msg)
    | .ok values =>
      if values.length = pvs.length then
        (match plugins.dedup with
         | [p] => .ok (p, pvs, values)
         | _ => .error .mixedTransportBatch)
      else .error .arityMismatch

/-! # Read-name derivation of the query and subscription paths -/

/-- GetChannel.__init__ (app.py line 50): the bare process-variable
name the query path hands to the plugin,
`store.transport_pv(self.config.read_pv or self.config.write_pv)[1]`.
When both fields are falsy, Python passes None into transport_pv and a
TypeError is raised there. -/
def getChannelReadName (store : PluginStore) (cfg : ChannelConfig) :
    Except String String :=
  match pyOrStr cfg.read_pv cfg.write_pv with
  | some pvtxt => .ok (store.transport_pv pvtxt).2
  | none => .error "TypeError: expected str, got None"

/-- subscribe_channel (app.py line 83): the bare name the subscription
path hands to the plugin, `store.transport_pv(config.read_pv)[1]`,
with no fallback; an absent read_pv passes None into transport_pv and
a TypeError is raised there. -/
def subscribeReadName (store : PluginStore) (cfg : ChannelConfig) :
    Except String String :=
  match cfg.read_pv with
  | some pvtxt => .ok (store.transport_pv pvtxt).2
  | none => .error "TypeError: expected str, got None"

/-- The behavior claim C8 describes for both operations: the bare name
comes from read_pv, falling back to write_pv when read_pv is absent. -/
def claimedReadName (store : PluginStore) (cfg : ChannelConfig) :
    Except String String :=
  match cfg.read_pv with
  | some pvtxt => .ok (store.transport_pv pvtxt).2
  | none =>
    match cfg.write_pv with
    | some w => .ok (store.transport_pv w).2
    | none => .error "no readable process variable"

/-- The decoding rule exactly as claim C4 states it: a value whose
first character opens a JSON array or object is parsed as JSON (dict
payloads decoded as typed binary, arrays used as-is); any other value
is kept as an opaque string scalar.  Under this description the empty
string, having no first character, is an opaque scalar. -/
def decodeValueClaimC4 (v : String) : Except String PutValue :=
  match v.data with
  | [] => .ok (.scalar v)
  | c :: _ => if c = '[' || c = '{' then jsonDecodePath v else .ok (.scalar v)

/-- The decoding rule amended as the code forces: a value that is
empty or whose first character opens a JSON array or object is parsed
as JSON (so the empty string raises a JSON parse error); any other
value is kept as an opaque string scalar. -/
def decodeValueAmended (v : String) : Except String PutValue :=
  match v.data with
  | [] => jsonDecodePath v
  | c :: _ => if c = '[' || c = '{' then jsonDecodePath v else .ok (.scalar v)

/-! # base64 round-trip lemmas -/

theorem charSextet_sextetChar : ∀ n, n < 64 → charSextet (sextetChar n) = some n := by
  decide

theorem sextetChar_ne_pad : ∀ n, n < 64 → ¬(sextetChar n = '=') := by
  decide

theorem b64keep_sextetChar : ∀ n, n < 64 → b64keep (sextetChar n) = true := by
  decide

theorem b64keep_pad : b64keep '=' = true := by decide

theorem b64encodeChars_filter (bytes : List Nat) :
    (∀ b ∈ bytes, b < 256) →
    (b64encodeChars bytes).filter b64keep = b64encodeChars bytes := by
  induction bytes using b64encodeChars.induct with
  | case1 => intro _; rfl
  | case2 a =>
    intro h
    have ha : a < 256 := h a (by simp)
    simp [b64encodeChars, List.filter,
      b64keep_sextetChar (a / 4) (by omega),
      b64keep_sextetChar (a % 4 * 16) (by omega), b64keep_pad]
  | case3 a b =>
    intro h
    have ha : a < 256 := h a (by simp)
    have hb : b < 256 := h b (by simp)
    simp [b64encodeChars, List.filter,
      b64keep_sextetChar (a / 4) (by omega),
      b64keep_sextetChar (a % 4 * 16 + b / 16) (by omega),
      b64keep_sextetChar (b % 16 * 4) (by omega), b64keep_pad]
  | case4 a b c rest ih =>
    intro h
    have ha : a < 256 := h a (by simp)
    have hb : b < 256 := h b (by simp)
    have hc : c < 256 := h c (by simp)
    have hrest : ∀ x ∈ rest, x < 256 := fun x hx => h x (by simp [hx])
    simp [b64encodeChars, List.filter,
      b64keep_sextetChar (a / 4) (by omega),
      b64keep_sextetChar (a % 4 * 16 + b / 16) (by omega),
      b64keep_sextetChar (b % 16 * 4 + c / 64) (by omega),
      b64keep_sextetChar (c % 64) (by omega), ih hrest]

theorem b64decodeChunks_encodeChars (bytes : List Nat) :
    (∀ b ∈ bytes, b < 256) →
    b64decodeChunks (b64encodeChars bytes) = .ok bytes := by
  induction bytes using b64encodeChars.induct with
  | case1 => intro _; rfl
  | case2 a =>
    intro h
    have ha : a < 256 := h a (by simp)
    simp [b64encodeChars, b64decodeChunks,
      charSextet_sextetChar (a / 4) (by omega),
      charSextet_sextetChar (a % 4 * 16) (by omega)]
    omega
  | case3 a b =>
    intro h
    have ha : a < 256 := h a (by simp)
    have hb : b < 256 := h b (by simp)
    simp [b64encodeChars, b64decodeChunks,
      charSextet_sextetChar (a / 4) (by omega),
      charSextet_sextetChar (a % 4 * 16 + b / 16) (by omega),
      charSextet_sextetChar (b % 16 * 4) (by omega),
      sextetChar_ne_pad (b % 16 * 4) (by omega)]
    omega
  | case4 a b c rest ih =>
    intro h
    have ha : a < 256 := h a (by simp)
    have hb : b < 256 := h b (by simp)
    have hc : c < 256 := h c (by simp)
    have hrest : ∀ x ∈ rest, x < 256 := fun x hx => h x (by simp [hx])
    simp [b64encodeChars, b64decodeChunks,
      charSextet_sextetChar (a / 4) (by omega),
      charSextet_sextetChar (a % 4 * 16 + b / 16) (by omega),
      charSextet_sextetChar (b % 16 * 4 + c / 64) (by omega),
      charSextet_sextetChar (c % 64) (by omega),
      sextetChar_ne_pad (b % 16 * 4 + c / 64) (by omega),
      sextetChar_ne_pad (c % 64) (by omega), ih hrest]
    omega

theorem b64_roundtrip (bytes : List Nat) (h : ∀ b ∈ bytes, b < 256) :
    b64decode (b64encode bytes) = .ok bytes := by
  show b64decodeChunks ((b64encodeChars bytes).filter b64keep) = .ok bytes
  rw [b64encodeChars_filter bytes h, b64decodeChunks_encodeChars bytes h]

/-! # float32 packing lemmas -/

theorem packFloat32_length (l : List Nat) :
    (packFloat32 l).length = 4 * l.length := by
  induction l with
  | nil => rfl
  | cons v vs ih =>
    simp only [packFloat32, List.length_cons, ih]
    omega

theorem packFloat32_bytes_lt (l : List Nat) :
    ∀ b ∈ packFloat32 l, b < 256 := by
  induction l with
  | nil => intro b hb; simp [packFloat32] at hb
  | cons v vs ih =>
    intro b hb
    simp only [packFloat32, List.mem_cons] at hb
    rcases hb with rfl | rfl | rfl | rfl | hb
    · omega
    · omega
    · omega
    · omega
    · exact ih b hb

theorem groupLEF_pack (l : List Nat) :
    (∀ x ∈ l, x < 4294967296) →
    ∀ fuel, l.length ≤ fuel → groupLEF fuel 4 (packFloat32 l) = l := by
  induction l with
  | nil =>
    intro _ fuel _
    cases fuel <;> rfl
  | cons v vs ih =>
    intro h fuel hfuel
    have hv : v < 4294967296 := h v (by simp)
    cases fuel with
    | zero => simp at hfuel
    | succ m =>
      have hstep : groupLEF (m + 1) 4 (packFloat32 (v :: vs)) =
          natLE [v % 256, v / 256 % 256, v / 65536 % 256, v / 16777216 % 256] ::
            groupLEF m 4 (packFloat32 vs) := rfl
      have hm : vs.length ≤ m := by
        simp only [List.length_cons] at hfuel
        omega
      have hval : natLE [v % 256, v / 256 % 256, v / 65536 % 256,
          v / 16777216 % 256] = v := by
        simp only [natLE]
        omega
      rw [hstep, hval, ih (fun x hx => h x (by simp [hx])) m hm]

theorem groupLE_packFloat32 (l : List Nat) (h : ∀ x ∈ l, x < 4294967296) :
    groupLE 4 (packFloat32 l) = l := by
  unfold groupLE
  refine groupLEF_pack l h (packFloat32 l).length ?_
  rw [packFloat32_length]
  omega

/-- C7: for every sequence of 4-byte float32 values (carried
bit-for-bit as 32-bit patterns), packing it into little-endian bytes,
encoding those bytes as base64, and decoding through the put_channel
typed-binary object path with numberType float32 reproduces the
original numeric sequence bit-for-bit. -/
theorem put_float32_roundtrip (l : List Nat) (h : ∀ x ∈ l, x < 4294967296) :
    decodeDict [("numberType", Json.str "float32"),
      ("base64", Json.str (b64encode (packFloat32 l)))] =
      .ok (.npArray "float32" l) := by
  have e1 : decodeDict [("numberType", Json.str "float32"),
      ("base64", Json.str (b64encode (packFloat32 l)))] =
      (match b64decode (b64encode (packFloat32 l)) with
       | .error e => .error e
       | .ok bytes =>
         match npFrombuffer 4 bytes with
         | .error e => .error e
         | .ok elems => .ok (.npArray "float32" elems)) := rfl
  rw [e1, b64_roundtrip _ (packFloat32_bytes_lt l)]
  show (match npFrombuffer 4 (packFloat32 l) with
        | Except.error e => (Except.error e : Except String PutValue)
        | Except.ok elems => Except.ok (PutValue.npArray "float32" elems)) =
      Except.ok (PutValue.npArray "float32" l)
  have e2 : npFrombuffer 4 (packFloat32 l) = .ok (groupLE 4 (packFloat32 l)) := by
    unfold npFrombuffer
    rw [packFloat32_length]
    simp
  rw [e2, groupLE_packFloat32 l h]

theorem put_float32_roundtrip_witness :
    (∀ x ∈ [1065353216, 3212836864], x < 4294967296) ∧
    decodeDict [("numberType", Json.str "float32"),
      ("base64", Json.str (b64encode (packFloat32 [1065353216, 3212836864])))] =
      .ok (.npArray "float32" [1065353216, 3212836864]) :=
  ⟨by decide, put_float32_roundtrip [1065353216, 3212836864] (by decide)⟩

/-- C4 counterexample: at the empty string the decode loop of
put_channel takes the JSON branch (the Python shape test
`value[:1] in "[{"` accepts the empty slice) and raises a JSON parse
error, while the rule as claimed keeps any value whose first character
does not open a JSON array or object as an opaque string scalar. -/
theorem decode_c4_counterexample :
    decode_put_value "" = .error "Expecting value" ∧
    decodeValueClaimC4 "" = .ok (.scalar "") :=
  ⟨rfl, rfl⟩

/-- C4 amended: put_channel decodes each encoded value independently
by shape, preserving positional pairing: a value that is empty or
whose first character opens a JSON array or object is parsed as JSON;
a parsed JSON object is decoded as a typed binary payload
(case-insensitive numberType tag, base64 field, bytes reinterpreted as
a little-endian numeric sequence of that element type); a parsed JSON
array is used as-is; any other (nonempty) value is kept as an opaque
string scalar. -/
theorem decode_c4_amended (v : String) :
    decode_put_value v = decodeValueAmended v := by
  unfold decode_put_value decodeValueAmended jsonShapeTest
  cases hv : v.data with
  | nil => simp
  | cons c cs => simp

/-! # put_channel batch theorems -/

/-- C9: an empty batch always fails: the single-transport assertion
`assert len(plugins) == 1` (app.py line 114) demands exactly one
distinct plugin, but an empty batch touches zero, so it fires (after
the vacuous resolution, decode and arity checks) and no plugin write
call is issued. -/
theorem put_channel_empty_batch (store : PluginStore) :
    put_channel store [] [] = .error .mixedTransportBatch ∧
    writeCalls (put_channel store [] []) = 0 :=
  ⟨rfl, rfl⟩

theorem decodeAll_mem_error (values : List String) (hmem : "" ∈ values) :
    ∃ msg, decodeAll values = .error msg := by
  induction values with
  | nil => simp at hmem
  | cons v vs ih =>
    have hstep : decodeAll (v :: vs) =
        (match decode_put_value v with
         | .error e => .error e
         | .ok d =>
           match decodeAll vs with
           | .error e => .error e
           | .ok ds => .ok (d :: ds)) := rfl
    rcases List.mem_cons.mp hmem with he | hm
    · subst he
      exact ⟨"Expecting value", rfl⟩
    · cases hd : decode_put_value v with
      | error e =>
        refine ⟨e, ?_⟩
        rw [hstep, hd]
      | ok d =>
        obtain ⟨msg, hm2⟩ := ih hm
        refine ⟨msg, ?_⟩
        rw [hstep, hd, hm2]

/-- C10: when any encoded value handed to put_channel is the empty
string, decoding takes the JSON branch (the first-character shape test
`value[:1] in "[{"` classifies the empty string as opening JSON,
because the empty slice is a substring) and raises a JSON parse error
instead of treating the value as an opaque string scalar; the whole
operation fails and no plugin write call is issued. -/
theorem put_channel_empty_value (store : PluginStore) (ids values : List String)
    (hmem : "" ∈ values) :
    jsonShapeTest "" = true ∧
    decode_put_value "" = .error "Expecting value" ∧
    (∃ e, put_channel store ids values = .error e) ∧
    writeCalls (put_channel store ids values) = 0 := by
  obtain ⟨msg, hdec⟩ := decodeAll_mem_error values hmem
  have hfail : ∃ e, put_channel store ids values = .error e := by
    unfold put_channel
    cases hres : resolveLoop store ids with
    | error e => exact ⟨e, rfl⟩
    | ok pr =>
      cases pr with
      | mk pvs plugins =>
        rw [hdec]
        exact ⟨.decodeFailure msg, rfl⟩
  obtain ⟨e, he⟩ := hfail
  exact ⟨rfl, rfl, ⟨e, he⟩, by rw [he]; rfl⟩

/-- A concrete two-transport store used by the witnesses: transports
ca (plugin 0, the default) and ssim (plugin 1); every bare name has a
read-write config. -/
def storeW : PluginStore :=
  { registrations := [("ca", 0), ("ssim", 1)]
    defaultTransport := some "ca"
    configOf := fun _ b => some { name := b, read_pv := some b, write_pv := some b } }

theorem put_channel_empty_value_witness :
    ("" ∈ ["1", ""]) ∧
    (jsonShapeTest "" = true ∧
      decode_put_value "" = .error "Expecting value" ∧
      (∃ e, put_channel storeW ["ca:X", "ca:Y"] ["1", ""] = .error e) ∧
      writeCalls (put_channel storeW ["ca:X", "ca:Y"] ["1", ""]) = 0) :=
  ⟨by decide, put_channel_empty_value storeW ["ca:X", "ca:Y"] ["1", ""] (by decide)⟩

/-! # resolution-loop lemmas for the batch validation claims -/

def exceptIsOk {ε α : Type} : Except ε α → Bool
  | .ok _ => true
  | .error _ => false

/-- The plugin instance an identifier resolves to (first component of
store.plugin_config_id), defaulting to 0 on resolution failure. -/
def pluginOf (store : PluginStore) (channel_id : String) : Nat :=
  match store.plugin_config_id channel_id with
  | .ok (p, _, _) => p
  | .error _ => 0

/-- The bare write name of a resolved identifier (what the resolution
loop of put_channel appends to pvs). -/
def writeNameOf (store : PluginStore) (channel_id : String) : String :=
  match store.plugin_config_id channel_id with
  | .ok (_, cfg, _) => (store.transport_pv (cfg.write_pv.getD "")).2
  | .error _ => ""

/-- Whether an identifier resolves and its config has a truthy
write_pv, so that `assert pv` (app.py line 98) passes. -/
def resolvesWritable (store : PluginStore) (channel_id : String) : Bool :=
  match store.plugin_config_id channel_id with
  | .ok (_, cfg, _) => pyTruthy cfg.write_pv
  | .error _ => false

theorem resolveLoop_all_writable (store : PluginStore) (ids : List String) :
    (∀ i ∈ ids, resolvesWritable store i = true) →
    resolveLoop store ids =
      .ok (ids.map (writeNameOf store), ids.map (pluginOf store)) := by
  induction ids with
  | nil => intro _; rfl
  | cons i rest ih =>
    intro h
    have hi := h i (by simp)
    have hrest : ∀ x ∈ rest, resolvesWritable store x = true :=
      fun x hx => h x (by simp [hx])
    have hstep : resolveLoop store (i :: rest) =
        (match store.plugin_config_id i with
         | .error e => .error e
         | .ok (p, cfg, bare) =>
           if pyTruthy cfg.write_pv then
             (match resolveLoop store rest with
              | .error e => .error e
              | .ok (pvs, ps) =>
                .ok ((store.transport_pv (cfg.write_pv.getD "")).2 :: pvs, p :: ps))
           else .error (.readOnlyChannel bare)) := rfl
    cases hres : store.plugin_config_id i with
    | error e =>
      unfold resolvesWritable at hi
      rw [hres] at hi
      simp at hi
    | ok trip =>
      obtain ⟨p, cfg, bare⟩ := trip
      have hw : pyTruthy cfg.write_pv = true := by
        unfold resolvesWritable at hi
        rw [hres] at hi
        exact hi
      rw [hstep, hres, ih hrest]
      simp only [hw, if_true, List.map_cons]
      unfold writeNameOf pluginOf
      rw [hres]

theorem decodeAll_all_ok (values : List String) :
    (∀ v ∈ values, exceptIsOk (decode_put_value v) = true) →
    ∃ ds, decodeAll values = .ok ds ∧ ds.length = values.length := by
  induction values with
  | nil => intro _; exact ⟨[], rfl, rfl⟩
  | cons v vs ih =>
    intro h
    have hv := h v (by simp)
    obtain ⟨ds, hds, hlen⟩ := ih (fun x hx => h x (by simp [hx]))
    have hstep : decodeAll (v :: vs) =
        (match decode_put_value v with
         | .error e => .error e
         | .ok d =>
           match decodeAll vs with
           | .error e => .error e
           | .ok ds2 => .ok (d :: ds2)) := rfl
    cases hd : decode_put_value v with
    | error e =>
      rw [hd] at hv
      simp [exceptIsOk] at hv
    | ok d =>
      refine ⟨d :: ds, ?_, by simp [hlen]⟩
      rw [hstep, hd, hds]

theorem dedup_not_singleton {l : List Nat} {a b : Nat} (ha : a ∈ l) (hb : b ∈ l)
    (hab : a ≠ b) : ∀ p, l.dedup ≠ [p] := by
  intro p hp
  have ha2 : a ∈ l.dedup := List.mem_dedup.mpr ha
  have hb2 : b ∈ l.dedup := List.mem_dedup.mpr hb
  rw [hp] at ha2 hb2
  simp at ha2 hb2
  exact hab (ha2.trans hb2.symm)

/-- C5 counterexample: a batch whose identifiers resolve (writable) to
two distinct plugin instances but whose values contain an undecodable
entry fails with the decode-loop JSON error, not with
MixedTransportBatch: the decode loop (app.py lines 102-112) runs
before the single-transport assertion of line 114.  Zero write calls
are still issued. -/
theorem put_channel_mixed_counterexample :
    resolvesWritable storeW "ca:X" = true ∧
    resolvesWritable storeW "ssim:Y" = true ∧
    pluginOf storeW "ca:X" ≠ pluginOf storeW "ssim:Y" ∧
    put_channel storeW ["ca:X", "ssim:Y"] ["", ""] =
      .error (.decodeFailure "Expecting value") ∧
    put_channel storeW ["ca:X", "ssim:Y"] ["", ""] ≠
      .error .mixedTransportBatch ∧
    writeCalls (put_channel storeW ["ca:X", "ssim:Y"] ["", ""]) = 0 := by
  refine ⟨by decide, by decide, by decide, rfl, ?_, rfl⟩
  rw [show put_channel storeW ["ca:X", "ssim:Y"] ["", ""] =
    .error (.decodeFailure "Expecting value") from rfl]
  simp

/-- C5 amended: when the identifiers passed to put_channel all resolve
with writable configs and touch more than one distinct plugin
instance, and every value decodes with the value count matching the
identifier count, the operation fails with the MixedTransportBatch
assertion (`assert len(plugins) == 1`, app.py line 114) and zero
plugin write calls are issued. -/
theorem put_channel_mixed_transport (store : PluginStore) (ids values : List String)
    (hres : ∀ i ∈ ids, resolvesWritable store i = true)
    (hlen : values.length = ids.length)
    (hdec : ∀ v ∈ values, exceptIsOk (decode_put_value v) = true)
    (hmix : ∃ i ∈ ids, ∃ j ∈ ids, pluginOf store i ≠ pluginOf store j) :
    put_channel store ids values = .error .mixedTransportBatch ∧
    writeCalls (put_channel store ids values) = 0 := by
  obtain ⟨ds, hds, hdlen⟩ := decodeAll_all_ok values hdec
  obtain ⟨i, hi, j, hj, hij⟩ := hmix
  have hloop := resolveLoop_all_writable store ids hres
  have hmain : put_channel store ids values = .error .mixedTransportBatch := by
    unfold put_channel
    simp only [hloop, hds]
    have hlen2 : ds.length = (ids.map (writeNameOf store)).length := by
      simp [hdlen, hlen]
    rw [if_pos hlen2]
    have hns := dedup_not_singleton (l := ids.map (pluginOf store))
      (List.mem_map_of_mem (pluginOf store) hi)
      (List.mem_map_of_mem (pluginOf store) hj) hij
    cases hd : (ids.map (pluginOf store)).dedup with
    | nil => rfl
    | cons p rest =>
      cases rest with
      | nil => exact absurd hd (hns p)
      | cons q rest2 => rfl
  exact ⟨hmain, by rw [hmain]; rfl⟩

theorem put_channel_mixed_transport_witness :
    ((∀ i ∈ ["ca:X", "ssim:Y"], resolvesWritable storeW i = true) ∧
      (["1", "2"] : List String).length = (["ca:X", "ssim:Y"] : List String).length ∧
      (∀ v ∈ ["1", "2"], exceptIsOk (decode_put_value v) = true) ∧
      (∃ i ∈ ["ca:X", "ssim:Y"], ∃ j ∈ ["ca:X", "ssim:Y"],
        pluginOf storeW i ≠ pluginOf storeW j)) ∧
    (put_channel storeW ["ca:X", "ssim:Y"] ["1", "2"] = .error .mixedTransportBatch ∧
      writeCalls (put_channel storeW ["ca:X", "ssim:Y"] ["1", "2"]) = 0) :=
  ⟨⟨by decide, by decide, by decide, by decide⟩,
    put_channel_mixed_transport storeW ["ca:X", "ssim:Y"] ["1", "2"]
      (by decide) (by decide) (by decide) (by decide)⟩

theorem resolveLoop_read_only (store : PluginStore) (ids : List String) :
    (∀ i ∈ ids, exceptIsOk (store.plugin_config_id i) = true) →
    (∃ i ∈ ids, resolvesWritable store i = false) →
    ∃ b, resolveLoop store ids = .error (.readOnlyChannel b) := by
  induction ids with
  | nil =>
    intro _ hbad
    simp at hbad
  | cons i rest ih =>
    intro hres hbad
    have hi := hres i (by simp)
    have hstep : resolveLoop store (i :: rest) =
        (match store.plugin_config_id i with
         | .error e => .error e
         | .ok (p, cfg, bare) =>
           if pyTruthy cfg.write_pv then
             (match resolveLoop store rest with
              | .error e => .error e
              | .ok (pvs, ps) =>
                .ok ((store.transport_pv (cfg.write_pv.getD "")).2 :: pvs, p :: ps))
           else .error (.readOnlyChannel bare)) := rfl
    cases hresi : store.plugin_config_id i with
    | error e =>
      rw [hresi] at hi
      simp [exceptIsOk] at hi
    | ok trip =>
      obtain ⟨p, cfg, bare⟩ := trip
      by_cases hw : pyTruthy cfg.write_pv = true
      · have hbad2 : ∃ x ∈ rest, resolvesWritable store x = false := by
          rcases hbad with ⟨x, hx, hxf⟩
          rcases List.mem_cons.mp hx with he | hxr
          · exfalso
            subst he
            unfold resolvesWritable at hxf
            rw [hresi] at hxf
            change pyTruthy cfg.write_pv = false at hxf
            rw [hw] at hxf
            exact Bool.true_eq_false.mp hxf
          · exact ⟨x, hxr, hxf⟩
        obtain ⟨b, hb⟩ := ih (fun x hx => hres x (by simp [hx])) hbad2
        refine ⟨b, ?_⟩
        rw [hstep, hresi]
        simp only [hw, if_true]
        rw [hb]
      · refine ⟨bare, ?_⟩
        rw [hstep, hresi]
        simp only [Bool.not_eq_true] at hw
        simp only [hw, Bool.false_eq_true, if_false]

/-- C6: when every identifier passed to put_channel resolves but some
identifier resolves to a config with no (truthy) write_pv, the
operation fails with the ReadOnlyChannel assertion (`assert pv`,
app.py line 98) during the resolution loop, before the decode loop and
before the batched write; no plugin write call is issued.  (The
configuration lookup inside resolution is pure store data in this
model; the only plugin call put_channel performs is the batched
write.) -/
theorem put_channel_read_only (store : PluginStore) (ids values : List String)
    (hres : ∀ i ∈ ids, exceptIsOk (store.plugin_config_id i) = true)
    (hbad : ∃ i ∈ ids, resolvesWritable store i = false) :
    (∃ b, put_channel store ids values = .error (.readOnlyChannel b)) ∧
    writeCalls (put_channel store ids values) = 0 := by
  obtain ⟨b, hb⟩ := resolveLoop_read_only store ids hres hbad
  have hmain : put_channel store ids values = .error (.readOnlyChannel b) := by
    unfold put_channel
    rw [hb]
  exact ⟨⟨b, hmain⟩, by rw [hmain]; rfl⟩

/-- A store like storeW whose bare name RO is read-only (no
write_pv). -/
def storeRO : PluginStore :=
  { registrations := [("ca", 0), ("ssim", 1)]
    defaultTransport := some "ca"
    configOf := fun _ b =>
      if b = "RO" then some { name := b, read_pv := some b, write_pv := none }
      else some { name := b, read_pv := some b, write_pv := some b } }

theorem put_channel_read_only_witness :
    ((∀ i ∈ ["ca:X", "ca:RO"], exceptIsOk (storeRO.plugin_config_id i) = true) ∧
      (∃ i ∈ ["ca:X", "ca:RO"], resolvesWritable storeRO i = false)) ∧
    ((∃ b, put_channel storeRO ["ca:X", "ca:RO"] ["1", "2"]
        = .error (.readOnlyChannel b)) ∧
      writeCalls (put_channel storeRO ["ca:X", "ca:RO"] ["1", "2"]) = 0) :=
  ⟨⟨by decide, by decide⟩,
    put_channel_read_only storeRO ["ca:X", "ca:RO"] ["1", "2"] (by decide) (by decide)⟩

/-! # read-name derivation theorems (claim C8) -/

/-- C8 counterexample: for a config with read_pv absent and write_pv
present, the claimed rule (and the get path) produces the bare write
name, but the subscribe path performs no fallback and raises instead:
app.py line 83 passes config.read_pv to transport_pv unconditionally. -/
theorem read_name_counterexample :
    subscribeReadName storeW { name := "X", read_pv := none, write_pv := some "W" }
        = .error "TypeError: expected str, got None" ∧
    claimedReadName storeW { name := "X", read_pv := none, write_pv := some "W" }
        = .ok "W" ∧
    getChannelReadName storeW { name := "X", read_pv := none, write_pv := some "W" }
        = .ok "W" :=
  ⟨rfl, rfl, rfl⟩

/-- C8 amended: for the get operation the bare plugin name is derived
from read_pv when it is present and nonempty, falling back to write_pv
when read_pv is absent; the subscribe operation derives it from
read_pv alone, with no fallback: an absent read_pv is an error there. -/
theorem read_name_amended (store : PluginStore) (cfg : ChannelConfig) :
    (∀ s, cfg.read_pv = some s → s ≠ "" →
      getChannelReadName store cfg = .ok (store.transport_pv s).2 ∧
      subscribeReadName store cfg = .ok (store.transport_pv s).2) ∧
    (cfg.read_pv = none →
      (∀ w, cfg.write_pv = some w →
        getChannelReadName store cfg = .ok (store.transport_pv w).2) ∧
      (∃ e, subscribeReadName store cfg = .error e)) := by
  constructor
  · intro s hs hne
    unfold getChannelReadName subscribeReadName pyOrStr
    rw [hs]
    simp [hne]
  · intro hn
    constructor
    · intro w hw
      unfold getChannelReadName pyOrStr
      rw [hn, hw]
    · unfold subscribeReadName
      rw [hn]
      exact ⟨_, rfl⟩

theorem read_name_amended_witness :
    getChannelReadName storeW { name := "X", read_pv := none, write_pv := some "W" }
        = .ok "W" ∧
    (∃ e, subscribeReadName storeW
        { name := "X", read_pv := none, write_pv := some "W" } = .error e) :=
  ⟨((read_name_amended storeW
      { name := "X", read_pv := none, write_pv := some "W" }).2 rfl).1 "W" rfl,
    ((read_name_amended storeW
      { name := "X", read_pv := none, write_pv := some "W" }).2 rfl).2⟩

end Coniql
